import Mathlib

/-!
Verification of the SimSIMD benchmark harness (`cpp/bench.cxx`).

The file shallowly embeds the harness in Lean:

* Scalar values flowing through the measurement routine are modelled as exact
  rationals (`ℚ`).  The narrowing conversion `double → simsimd_f32_t` performed
  by the folding lambdas (bench.cxx lines 60 and 67) is kept as an explicit
  abstract function parameter `f32 : ℚ → ℚ`, so that statements about where
  the narrowing happens remain expressible without fixing an IEEE model.
* The kernels (`metric_at`) are opaque in the source; they are modelled as
  functions receiving the two vectors and the initial contents of the
  two-slot output buffer and returning the final contents of that buffer.
* The random fill (`vectors_pair_gt::randomize`) involving `sqrt` is modelled
  over `ℝ`, parameterised by the stream of `rand()` draws and by `RAND_MAX`,
  with the `static_cast` to the scalar width read as value-preserving
  (exact-arithmetic idealisation).
-/

namespace SimSIMD

/-- `function_kind_t`, bench.cxx lines 12–16. -/
inductive function_kind_t : Type
  | distance_k : function_kind_t
  | complex_dot_k : function_kind_t
  | haversine_k : function_kind_t
  deriving DecidableEq, Repr

/-- `vectors_pair_gt<scalar_at, dimensions_ak>`, bench.cxx lines 18–21: two
fixed-length vectors `a` and `b` of the same scalar type and dimension. -/
structure vectors_pair_gt (α : Type) (dimensions_ak : ℕ) : Type where
  a : Fin dimensions_ak → α
  b : Fin dimensions_ak → α

/-- `vectors_pair_gt::dimensions`, bench.cxx line 22. -/
def vectors_pair_gt.dimensions {α : Type} {d : ℕ} (_ : vectors_pair_gt α d) : ℕ := d

/-- `vectors_pair_gt::size_bytes`, bench.cxx line 23: `dimensions_ak *
sizeof(scalar_at)`; the scalar byte width is passed explicitly. -/
def vectors_pair_gt.size_bytes {α : Type} {d : ℕ} (sizeof_scalar : ℕ)
    (_ : vectors_pair_gt α d) : ℕ := d * sizeof_scalar

/-- A kernel `metric_at`: receives the two vectors and the initial contents of
the caller's two-slot output buffer, and yields the final contents of that
buffer.  (A kernel writing only slot 0 leaves slot 1 at its initial value.) -/
def metric_fn (α : Type) (d : ℕ) : Type :=
  (Fin d → α) → (Fin d → α) → ℚ × ℚ → ℚ × ℚ

/-- A `benchmark::Counter`: a numeric value together with its `kIsRate` flag. -/
structure bm_counter : Type where
  value : ℚ
  is_rate : Bool
  deriving DecidableEq, Repr

/-- Which kernel a call inside `measure` invoked, for tracing the order of
baseline and contender invocations. -/
inductive call_event : Type
  | baseline_call : call_event
  | contender_call : call_event
  deriving DecidableEq, Repr

/-- The timed loop `for (auto _ : state) { c = call_contender(pair); iterations++; }`
of bench.cxx lines 78–79, run for `n` engine-driven iterations.  Returns the
value of `c` (initialised to `0` at line 76), the iteration counter and the
trace of kernel calls made inside the loop.  Each iteration re-invokes the
contender on the same pair, so the per-iteration value is the fixed rational
`call_contender`. -/
def timed_loop (call_contender : ℚ) : ℕ → ℚ × ℕ × List call_event
  | 0 => (0, 0, [])
  | n + 1 =>
    let s := timed_loop call_contender n
    (call_contender, s.2.1 + 1, s.2.2 ++ [call_event.contender_call])

/-- Everything `measure` leaves in the benchmark `state`, plus the call trace
and the two folded scalars, for stating temporal properties. -/
structure measure_result : Type where
  trace : List call_event
  c_baseline : ℚ
  c : ℚ
  iterations : ℕ
  bytes : bm_counter
  pairs : bm_counter
  abs_delta : ℚ
  relative_error : ℚ
  deriving DecidableEq, Repr

/-- The clamp tolerance `0.0001` of bench.cxx line 84, read exactly. -/
def tolerance : ℚ := 1 / 10000

/-- `measure<pair_at, function_kind, metric_at>`, bench.cxx lines 53–88.

`pair` is the randomized pair generated at line 57 (input generation is
external randomness, so the pair is a parameter here); `f32` is the
`double → simsimd_f32_t` narrowing applied by the folding lambdas' return
(lines 60, 67); `state_iterations` is the number of iterations the external
engine drives the timed loop for.  Both folding lambdas pass a fresh
zero-initialised two-slot buffer to their kernel and sum its two slots. -/
def measure (_function_kind : function_kind_t) {d : ℕ} (sizeof_scalar : ℕ)
    (metric baseline : metric_fn ℚ d) (f32 : ℚ → ℚ)
    (pair : vectors_pair_gt ℚ d) (state_iterations : ℕ) : measure_result :=
  let call_baseline : ℚ :=
    f32 ((baseline pair.a pair.b (0, 0)).1 + (baseline pair.a pair.b (0, 0)).2)
  let call_contender : ℚ :=
    f32 ((metric pair.a pair.b (0, 0)).1 + (metric pair.a pair.b (0, 0)).2)
  let c_baseline : ℚ := call_baseline
  let loop := timed_loop call_contender state_iterations
  let c : ℚ := loop.1
  let iterations : ℕ := loop.2.1
  let delta : ℚ := if |c - c_baseline| > tolerance then |c - c_baseline| else 0
  let error : ℚ := if delta ≠ 0 ∧ c_baseline ≠ 0 then delta / c_baseline else 0
  { trace := call_event.baseline_call :: loop.2.2
    c_baseline := c_baseline
    c := c
    iterations := iterations
    bytes := ⟨((iterations * (vectors_pair_gt.size_bytes sizeof_scalar pair) * 2 : ℕ) : ℚ), true⟩
    pairs := ⟨(iterations : ℚ), true⟩
    abs_delta := delta
    relative_error := error }

theorem timed_loop_iterations (c : ℚ) (n : ℕ) : (timed_loop c n).2.1 = n := by
  induction n with
  | zero => rfl
  | succ n ih => simp [timed_loop, ih]

theorem timed_loop_trace (c : ℚ) (n : ℕ) :
    (timed_loop c n).2.2 = List.replicate n call_event.contender_call := by
  induction n with
  | zero => rfl
  | succ n ih => simp [timed_loop, ih, List.replicate_succ']

theorem timed_loop_value (c : ℚ) (n : ℕ) (h : 1 ≤ n) : (timed_loop c n).1 = c := by
  cases n with
  | zero => exact absurd h (by simp)
  | succ n => rfl

theorem timed_loop_value_zero (c : ℚ) : (timed_loop c 0).1 = 0 := rfl

theorem measure_relative_error_eq (k : function_kind_t) {d : ℕ} (so : ℕ)
    (metric baseline : metric_fn ℚ d) (f32 : ℚ → ℚ) (pair : vectors_pair_gt ℚ d) (n : ℕ) :
    (measure k so metric baseline f32 pair n).relative_error =
      if (measure k so metric baseline f32 pair n).abs_delta ≠ 0 ∧
          (measure k so metric baseline f32 pair n).c_baseline ≠ 0 then
        (measure k so metric baseline f32 pair n).abs_delta /
          (measure k so metric baseline f32 pair n).c_baseline
      else 0 := rfl

theorem measure_abs_delta_eq (k : function_kind_t) {d : ℕ} (so : ℕ)
    (metric baseline : metric_fn ℚ d) (f32 : ℚ → ℚ) (pair : vectors_pair_gt ℚ d) (n : ℕ) :
    (measure k so metric baseline f32 pair n).abs_delta =
      if tolerance <
          |(measure k so metric baseline f32 pair n).c -
            (measure k so metric baseline f32 pair n).c_baseline| then
        |(measure k so metric baseline f32 pair n).c -
          (measure k so metric baseline f32 pair n).c_baseline|
      else 0 := rfl

/-- A one-dimensional pair of zero vectors, used as a concrete input. -/
def unit_pair : vectors_pair_gt ℚ 1 := ⟨fun _ => 0, fun _ => 0⟩

/-- A kernel that ignores its inputs and buffer and writes the fixed pair `r`
into the two output slots. -/
def const_metric (r : ℚ × ℚ) : metric_fn ℚ 1 := fun _ _ _ => r

/-- A narrowing map that collapses every value, used to exhibit that the
accuracy counters see only narrowed folds. -/
def collapse_f32 : ℚ → ℚ := fun _ => 0

/-- C1 (amended): the reported `relative_error` equals `abs_delta` divided by
the signed reference value `c_baseline` (not by its absolute value) when both
are nonzero, and equals 0 otherwise — in particular it is 0 whenever the
reference value is 0, with no division performed. -/
theorem c1_relative_error_formula (k : function_kind_t) {d : ℕ} (so : ℕ)
    (metric baseline : metric_fn ℚ d) (f32 : ℚ → ℚ) (pair : vectors_pair_gt ℚ d) (n : ℕ) :
    ((measure k so metric baseline f32 pair n).abs_delta ≠ 0 →
      (measure k so metric baseline f32 pair n).c_baseline ≠ 0 →
      (measure k so metric baseline f32 pair n).relative_error =
        (measure k so metric baseline f32 pair n).abs_delta /
          (measure k so metric baseline f32 pair n).c_baseline) ∧
    ((measure k so metric baseline f32 pair n).abs_delta = 0 ∨
        (measure k so metric baseline f32 pair n).c_baseline = 0 →
      (measure k so metric baseline f32 pair n).relative_error = 0) := by
  rw [measure_relative_error_eq]
  constructor
  · intro h1 h2
    rw [if_pos ⟨h1, h2⟩]
  · intro h
    rw [if_neg]
    rcases h with h | h
    · exact fun hc => hc.1 h
    · exact fun hc => hc.2 h

theorem c1_witness :
    (measure function_kind_t.distance_k 4 (const_metric (1, 0)) (const_metric (-1, 0))
        id unit_pair 1).abs_delta ≠ 0 ∧
    (measure function_kind_t.distance_k 4 (const_metric (1, 0)) (const_metric (-1, 0))
        id unit_pair 1).c_baseline ≠ 0 ∧
    (measure function_kind_t.distance_k 4 (const_metric (1, 0)) (const_metric (-1, 0))
        id unit_pair 1).relative_error =
      (measure function_kind_t.distance_k 4 (const_metric (1, 0)) (const_metric (-1, 0))
          id unit_pair 1).abs_delta /
        (measure function_kind_t.distance_k 4 (const_metric (1, 0)) (const_metric (-1, 0))
            id unit_pair 1).c_baseline :=
  ⟨by norm_num [measure, timed_loop, const_metric, unit_pair, tolerance], by norm_num [measure, timed_loop, const_metric, unit_pair, tolerance],
    (c1_relative_error_formula function_kind_t.distance_k 4 (const_metric (1, 0))
        (const_metric (-1, 0)) id unit_pair 1).1 (by norm_num [measure, timed_loop, const_metric, unit_pair, tolerance]) (by norm_num [measure, timed_loop, const_metric, unit_pair, tolerance])⟩

/-- C1 counterexample: with a baseline folding to `-1` and a contender folding
to `1`, the code reports `relative_error = -2`, which differs from
`abs_delta / |c_baseline| = 2`: the code divides by the signed reference
value, not by its absolute value as the claim states. -/
theorem c1_counterexample :
    (measure function_kind_t.distance_k 4 (const_metric (1, 0)) (const_metric (-1, 0))
        id unit_pair 1).abs_delta ≠ 0 ∧
    (measure function_kind_t.distance_k 4 (const_metric (1, 0)) (const_metric (-1, 0))
        id unit_pair 1).c_baseline ≠ 0 ∧
    (measure function_kind_t.distance_k 4 (const_metric (1, 0)) (const_metric (-1, 0))
        id unit_pair 1).relative_error ≠
      (measure function_kind_t.distance_k 4 (const_metric (1, 0)) (const_metric (-1, 0))
          id unit_pair 1).abs_delta /
        |(measure function_kind_t.distance_k 4 (const_metric (1, 0)) (const_metric (-1, 0))
            id unit_pair 1).c_baseline| := by
  refine ⟨?_, ?_, ?_⟩ <;> norm_num [measure, timed_loop, const_metric, unit_pair, tolerance]

/-- C2 (amended): the reported `abs_delta` is 0 whenever the folded outputs
differ by **at most** the tolerance `0.0001` (the code clamps on `≤`, not
only on `<`), and equals `|c − c_baseline|` whenever they differ by strictly
more than the tolerance. -/
theorem c2_abs_delta_clamp (k : function_kind_t) {d : ℕ} (so : ℕ)
    (metric baseline : metric_fn ℚ d) (f32 : ℚ → ℚ) (pair : vectors_pair_gt ℚ d) (n : ℕ) :
    ((|(measure k so metric baseline f32 pair n).c -
        (measure k so metric baseline f32 pair n).c_baseline| ≤ tolerance →
      (measure k so metric baseline f32 pair n).abs_delta = 0)) ∧
    (tolerance <
        |(measure k so metric baseline f32 pair n).c -
          (measure k so metric baseline f32 pair n).c_baseline| →
      (measure k so metric baseline f32 pair n).abs_delta =
        |(measure k so metric baseline f32 pair n).c -
          (measure k so metric baseline f32 pair n).c_baseline|) := by
  rw [measure_abs_delta_eq]
  constructor
  · intro h
    rw [if_neg (not_lt.mpr h)]
  · intro h
    rw [if_pos h]

theorem c2_witness :
    |(measure function_kind_t.distance_k 4 (const_metric (1 / 10000, 0))
        (const_metric (0, 0)) id unit_pair 1).c -
      (measure function_kind_t.distance_k 4 (const_metric (1 / 10000, 0))
          (const_metric (0, 0)) id unit_pair 1).c_baseline| ≤ tolerance ∧
    (measure function_kind_t.distance_k 4 (const_metric (1 / 10000, 0))
        (const_metric (0, 0)) id unit_pair 1).abs_delta = 0 :=
  ⟨by norm_num [measure, timed_loop, const_metric, unit_pair, tolerance, abs_of_nonneg],
    (c2_abs_delta_clamp function_kind_t.distance_k 4 (const_metric (1 / 10000, 0))
        (const_metric (0, 0)) id unit_pair 1).1
      (by norm_num [measure, timed_loop, const_metric, unit_pair, tolerance, abs_of_nonneg])⟩

/-- C2 counterexample: with folded outputs differing by exactly `0.0001`, the
difference is **not** strictly below the tolerance, so the claim as stated
requires `abs_delta = |c − c_baseline| = 0.0001`; the code reports 0. -/
theorem c2_counterexample :
    |(measure function_kind_t.distance_k 4 (const_metric (1 / 10000, 0))
        (const_metric (0, 0)) id unit_pair 1).c -
      (measure function_kind_t.distance_k 4 (const_metric (1 / 10000, 0))
          (const_metric (0, 0)) id unit_pair 1).c_baseline| = tolerance ∧
    ¬(|(measure function_kind_t.distance_k 4 (const_metric (1 / 10000, 0))
        (const_metric (0, 0)) id unit_pair 1).c -
      (measure function_kind_t.distance_k 4 (const_metric (1 / 10000, 0))
          (const_metric (0, 0)) id unit_pair 1).c_baseline| < tolerance) ∧
    (measure function_kind_t.distance_k 4 (const_metric (1 / 10000, 0))
        (const_metric (0, 0)) id unit_pair 1).abs_delta ≠
      |(measure function_kind_t.distance_k 4 (const_metric (1 / 10000, 0))
          (const_metric (0, 0)) id unit_pair 1).c -
        (measure function_kind_t.distance_k 4 (const_metric (1 / 10000, 0))
            (const_metric (0, 0)) id unit_pair 1).c_baseline| := by
  refine ⟨?_, ?_, ?_⟩ <;>
    norm_num [measure, timed_loop, const_metric, unit_pair, tolerance, abs_of_nonneg]

/-- C3: the call trace of `measure` is one baseline invocation strictly before
the timed loop, followed by exactly `n` contender invocations (one per timed
iteration); the reference value is the fold of the baseline's output on a
zero-initialised two-slot buffer, and for at least one iteration the retained
contender scalar is the fold of the contender's output on a zero-initialised
two-slot buffer (the value computed by the last iteration). -/
theorem c3_call_order (k : function_kind_t) {d : ℕ} (so : ℕ)
    (metric baseline : metric_fn ℚ d) (f32 : ℚ → ℚ) (pair : vectors_pair_gt ℚ d) (n : ℕ) :
    (measure k so metric baseline f32 pair n).trace =
      call_event.baseline_call :: List.replicate n call_event.contender_call ∧
    (measure k so metric baseline f32 pair n).c_baseline =
      f32 ((baseline pair.a pair.b (0, 0)).1 + (baseline pair.a pair.b (0, 0)).2) ∧
    (measure k so metric baseline f32 pair n).iterations = n ∧
    (1 ≤ n →
      (measure k so metric baseline f32 pair n).c =
        f32 ((metric pair.a pair.b (0, 0)).1 + (metric pair.a pair.b (0, 0)).2)) := by
  refine ⟨?_, rfl, ?_, ?_⟩
  · show call_event.baseline_call :: (timed_loop _ n).2.2 = _
    rw [timed_loop_trace]
  · exact timed_loop_iterations _ n
  · intro h
    exact timed_loop_value _ n h

theorem c3_witness :
    1 ≤ 1 ∧
    (measure function_kind_t.distance_k 4 (const_metric (1, 0)) (const_metric (1, 0))
        id unit_pair 1).trace =
      [call_event.baseline_call, call_event.contender_call] ∧
    (measure function_kind_t.distance_k 4 (const_metric (1, 0)) (const_metric (1, 0))
        id unit_pair 1).c =
      id ((const_metric (1, 0) unit_pair.a unit_pair.b (0, 0)).1 +
        (const_metric (1, 0) unit_pair.a unit_pair.b (0, 0)).2) :=
  ⟨le_refl 1,
    (c3_call_order function_kind_t.distance_k 4 (const_metric (1, 0)) (const_metric (1, 0))
        id unit_pair 1).1,
    (c3_call_order function_kind_t.distance_k 4 (const_metric (1, 0)) (const_metric (1, 0))
        id unit_pair 1).2.2.2 (le_refl 1)⟩

/-- C7: after `n` timed iterations on a pair of `d * sizeof_scalar` bytes per
vector, the bytes counter value is `n * (d * sizeof_scalar) * 2` and the pairs
counter value is `n`, and both carry the `kIsRate` flag. -/
theorem c7_rate_counters (k : function_kind_t) {d : ℕ} (so : ℕ)
    (metric baseline : metric_fn ℚ d) (f32 : ℚ → ℚ) (pair : vectors_pair_gt ℚ d) (n : ℕ) :
    (measure k so metric baseline f32 pair n).bytes =
      ⟨((n * (d * so) * 2 : ℕ) : ℚ), true⟩ ∧
    (measure k so metric baseline f32 pair n).pairs = ⟨(n : ℚ), true⟩ := by
  constructor
  · show (⟨(((timed_loop _ n).2.1 * (d * so) * 2 : ℕ) : ℚ), true⟩ : bm_counter) = _
    rw [timed_loop_iterations]
  · show (⟨(((timed_loop _ n).2.1 : ℕ) : ℚ), true⟩ : bm_counter) = _
    rw [timed_loop_iterations]

/-- C9: the `function_kind` template tag is never read by `measure`, so every
field of the result — trace, counters, deltas — is identical for all three
tag values. -/
theorem c9_kind_irrelevant {d : ℕ} (k1 k2 : function_kind_t) (so : ℕ)
    (metric baseline : metric_fn ℚ d) (f32 : ℚ → ℚ) (pair : vectors_pair_gt ℚ d) (n : ℕ) :
    measure k1 so metric baseline f32 pair n = measure k2 so metric baseline f32 pair n := rfl

/-- C10: both folded scalars pass through the `f32` narrowing before the
accuracy comparison: the reference value is the narrowed baseline fold, and
whenever two contender/baseline pairs have raw double-precision sums that
narrow to the same `f32` values, every accuracy counter agrees — `abs_delta`
and `relative_error` are computed over the narrowed values only. -/
theorem c10_f32_narrowing {d : ℕ} (k : function_kind_t) (so : ℕ)
    (m1 b1 m2 b2 : metric_fn ℚ d) (f32 : ℚ → ℚ) (pair : vectors_pair_gt ℚ d) (n : ℕ)
    (hm : f32 ((m1 pair.a pair.b (0, 0)).1 + (m1 pair.a pair.b (0, 0)).2) =
      f32 ((m2 pair.a pair.b (0, 0)).1 + (m2 pair.a pair.b (0, 0)).2))
    (hb : f32 ((b1 pair.a pair.b (0, 0)).1 + (b1 pair.a pair.b (0, 0)).2) =
      f32 ((b2 pair.a pair.b (0, 0)).1 + (b2 pair.a pair.b (0, 0)).2)) :
    (measure k so m1 b1 f32 pair n).c_baseline =
      f32 ((b1 pair.a pair.b (0, 0)).1 + (b1 pair.a pair.b (0, 0)).2) ∧
    (measure k so m1 b1 f32 pair n).abs_delta = (measure k so m2 b2 f32 pair n).abs_delta ∧
    (measure k so m1 b1 f32 pair n).relative_error =
      (measure k so m2 b2 f32 pair n).relative_error := by
  refine ⟨rfl, ?_, ?_⟩ <;> simp only [measure, hm, hb]

theorem c10_witness :
    collapse_f32 ((const_metric (1, 0) unit_pair.a unit_pair.b (0, 0)).1 +
        (const_metric (1, 0) unit_pair.a unit_pair.b (0, 0)).2) =
      collapse_f32 ((const_metric (2, 0) unit_pair.a unit_pair.b (0, 0)).1 +
        (const_metric (2, 0) unit_pair.a unit_pair.b (0, 0)).2) ∧
    (measure function_kind_t.distance_k 4 (const_metric (1, 0)) (const_metric (3, 0))
        collapse_f32 unit_pair 1).abs_delta =
      (measure function_kind_t.distance_k 4 (const_metric (2, 0)) (const_metric (4, 0))
          collapse_f32 unit_pair 1).abs_delta :=
  ⟨rfl,
    (c10_f32_narrowing function_kind_t.distance_k 4 (const_metric (1, 0)) (const_metric (3, 0))
        (const_metric (2, 0)) (const_metric (4, 0)) collapse_f32 unit_pair 1 rfl rfl).2.1⟩

/-- A registered benchmark case: the name handed to `RegisterBenchmark`, the
template dimension of its pair type, and the `MinTime`/`Threads` settings
(bench.cxx lines 98–101). -/
structure benchmark_case : Type where
  name : String
  dimensions : ℕ
  min_time_seconds : ℕ
  threads : ℕ
  deriving DecidableEq, Repr

/-- The case built from `pair_dims_t = vectors_pair_gt<scalar_at, 1536>`,
bench.cxx lines 96–101: name `name + "_" + to_string(1536) + "d"`, ten-second
minimum time, hardware-concurrency threads. -/
def dims_case (name : String) (hardware_concurrency : ℕ) : benchmark_case :=
  { name := name ++ "_" ++ toString (1536 : ℕ) ++ "d"
    dimensions := 1536
    min_time_seconds := 10
    threads := hardware_concurrency }

/-- The case the statements after the early `return` (bench.cxx lines 104–109)
would build from `pair_bytes_t = vectors_pair_gt<scalar_at, 1536 / sizeof(scalar_at)>`,
named by its byte count `size_bytes = (1536 / sizeof) * sizeof`. -/
def bytes_case (name : String) (sizeof_scalar hardware_concurrency : ℕ) : benchmark_case :=
  { name := name ++ "_" ++ toString (1536 / sizeof_scalar * sizeof_scalar) ++ "b"
    dimensions := 1536 / sizeof_scalar
    min_time_seconds := 10
    threads := hardware_concurrency }

/-- The body of `register_`, bench.cxx lines 90–110, with the C++ `return`
statements modelled as `throw` in an `Except` early-exit monad carrying the
registry built so far: the dims-sized registration is followed by `return`
(line 103), so the byte-sized registration below it is dead code. -/
def register_body (name : String) (sizeof_scalar hardware_concurrency : ℕ) :
    Except (List benchmark_case) (List benchmark_case) := do
  let registry : List benchmark_case := []
  let registry := registry ++ [dims_case name hardware_concurrency]
  throw registry
  let registry := registry ++ [bytes_case name sizeof_scalar hardware_concurrency]
  throw registry

/-- `register_<scalar_at, function_kind, metric_at>`: the list of benchmark
cases one call actually registers (the registry at whichever `return` the
control flow reaches). -/
def register_ (name : String) (sizeof_scalar hardware_concurrency : ℕ) :
    List benchmark_case :=
  match register_body name sizeof_scalar hardware_concurrency with
  | .error r => r
  | .ok r => r

theorem string_data_append (s t : String) : (s ++ t).data = s.data ++ t.data := by
  cases s; cases t; rfl

theorem dims_case_name (name : String) (hardware_concurrency : ℕ) :
    dims_case name hardware_concurrency =
      { name := name ++ "_1536d", dimensions := 1536, min_time_seconds := 10,
        threads := hardware_concurrency } := by
  unfold dims_case
  congr 1
  rw [String.append_assoc, String.append_assoc]
  rfl

theorem bytes_case_ne_dims_case (name : String) (sizeof_scalar hardware_concurrency : ℕ) :
    bytes_case name sizeof_scalar hardware_concurrency ≠ dims_case name hardware_concurrency := by
  intro h
  have hname := congrArg benchmark_case.name h
  unfold bytes_case dims_case at hname
  have h2 := congrArg String.data hname
  rw [string_data_append, string_data_append, string_data_append, string_data_append] at h2
  have h3 := congrArg List.getLast? h2
  rw [show ("b" : String).data = ['b'] from rfl, show ("d" : String).data = ['d'] from rfl] at h3
  rw [List.getLast?_concat, List.getLast?_concat] at h3
  simp at h3

/-- C6: every call to `register_` registers exactly one case — dimension 1536,
ten-second minimum run time, thread count equal to the detected hardware
concurrency, and a name ending in the `_1536d` dimension suffix — and the
byte-count-derived case after the early `return` is never registered. -/
theorem c6_register_single_case (name : String) (sizeof_scalar hardware_concurrency : ℕ) :
    register_ name sizeof_scalar hardware_concurrency =
      [{ name := name ++ "_1536d", dimensions := 1536, min_time_seconds := 10,
         threads := hardware_concurrency }] ∧
    (register_ name sizeof_scalar hardware_concurrency).length = 1 ∧
    bytes_case name sizeof_scalar hardware_concurrency ∉
      register_ name sizeof_scalar hardware_concurrency := by
  refine ⟨?_, rfl, ?_⟩
  · show [dims_case name hardware_concurrency] = _
    rw [dims_case_name]
  · intro hmem
    exact bytes_case_ne_dims_case name sizeof_scalar hardware_concurrency
      (List.mem_singleton.mp hmem)

/-- The portable serial tier, bench.cxx lines 215–240: registered
unconditionally (no capability guard), with the byte width of each scalar
type (`f16` = 2, `f32` = 4, `f64` = 8, `i8` = 1, `b8` = 1). -/
def serial_registrations (hardware_concurrency : ℕ) : List benchmark_case :=
  register_ "serial_f16_dot" 2 hardware_concurrency ++
  register_ "serial_f16_cos" 2 hardware_concurrency ++
  register_ "serial_f16_l2sq" 2 hardware_concurrency ++
  register_ "serial_f16_kl" 2 hardware_concurrency ++
  register_ "serial_f16_js" 2 hardware_concurrency ++
  register_ "serial_f32_dot" 4 hardware_concurrency ++
  register_ "serial_f32_cos" 4 hardware_concurrency ++
  register_ "serial_f32_l2sq" 4 hardware_concurrency ++
  register_ "serial_f32_kl" 4 hardware_concurrency ++
  register_ "serial_f32_js" 4 hardware_concurrency ++
  register_ "serial_f64_dot" 8 hardware_concurrency ++
  register_ "serial_f64_cos" 8 hardware_concurrency ++
  register_ "serial_f64_l2sq" 8 hardware_concurrency ++
  register_ "serial_i8_cos" 1 hardware_concurrency ++
  register_ "serial_i8_l2sq" 1 hardware_concurrency ++
  register_ "serial_f32c_dot" 4 hardware_concurrency ++
  register_ "serial_f16c_dot" 2 hardware_concurrency ++
  register_ "serial_b8_hamming" 1 hardware_concurrency ++
  register_ "serial_b8_jaccard" 1 hardware_concurrency

/-- What one activation of `main` observably does: the process exit code, the
benchmark cases registered, and whether `RunSpecifiedBenchmarks` was reached. -/
structure main_result : Type where
  exit_code : ℕ
  registered : List benchmark_case
  benchmarks_ran : Bool
  deriving DecidableEq, Repr

/-- `main`, bench.cxx lines 112–245.  `ReportUnrecognizedArguments` (line 129)
is checked before any registration: when it reports `true` the process returns
1 with nothing registered and nothing run (lines 129–130); otherwise the
compile-time-gated target tiers (the `#if` blocks, abstracted here as
`target_cases`) and the unconditional serial tier are registered,
`RunSpecifiedBenchmarks` runs them all, and the process returns 0 (line 244). -/
def main (target_cases : List benchmark_case) (hardware_concurrency : ℕ)
    (unrecognized_arguments : Bool) : main_result :=
  if unrecognized_arguments then
    { exit_code := 1, registered := [], benchmarks_ran := false }
  else
    { exit_code := 0
      registered := target_cases ++ serial_registrations hardware_concurrency
      benchmarks_ran := true }

/-- C8: with unrecognized command-line arguments present the process exits
with code 1 before any benchmark runs; on normal completion, after the
registered cases have run, it exits with code 0. -/
theorem c8_exit_codes (target_cases : List benchmark_case) (hardware_concurrency : ℕ) :
    (main target_cases hardware_concurrency true).exit_code = 1 ∧
    (main target_cases hardware_concurrency true).benchmarks_ran = false ∧
    (main target_cases hardware_concurrency false).exit_code = 0 ∧
    (main target_cases hardware_concurrency false).benchmarks_ran = true :=
  ⟨rfl, rfl, rfl, rfl⟩

/-- One floating draw, bench.cxx line 37: `double(rand()) / double(RAND_MAX)`
for the `k`-th call to `rand()` in the fill loop (the loop draws for `a[i]`
and `b[i]` in turn, so call `2*i` fills `a[i]` and call `2*i+1` fills `b[i]`). -/
noncomputable def raw_draw (rand_max : ℕ) (r : ℕ → ℕ) (k : ℕ) : ℝ :=
  (r k : ℝ) / (rand_max : ℝ)

/-- The running sum-of-squares accumulator of bench.cxx lines 32 and 38:
`a2_sum += ai * ai`, after the first `n` iterations of the fill loop. -/
noncomputable def sum_squares (raw : ℕ → ℝ) : ℕ → ℝ
  | 0 => 0
  | n + 1 => sum_squares raw n + raw n * raw n

/-- `vectors_pair_gt::randomize` for floating-point scalars, bench.cxx lines
30–50, with the `static_cast<scalar_at>` narrowing kept as the abstract
parameter `cast_fp` (the identity for `f64`, lossy for `f16`/`f32`): the fill
loop stores each element already cast to the scalar width (line 39) while
accumulating each vector's sum of squares of the raw, uncast draws (line 38);
the normalization loop then divides every stored — already cast — element by
the square root of its own vector's raw sum and casts the quotient to the
scalar width again (lines 44–49). -/
noncomputable def randomize (d rand_max : ℕ) (r : ℕ → ℕ) (cast_fp : ℝ → ℝ) :
    vectors_pair_gt ℝ d :=
  let rawA : ℕ → ℝ := fun k => raw_draw rand_max r (2 * k)
  let rawB : ℕ → ℝ := fun k => raw_draw rand_max r (2 * k + 1)
  let a2_sum : ℝ := Real.sqrt (sum_squares rawA d)
  let b2_sum : ℝ := Real.sqrt (sum_squares rawB d)
  { a := fun i => cast_fp (cast_fp (rawA i) / a2_sum)
    b := fun i => cast_fp (cast_fp (rawB i) / b2_sum) }

/-- `randomize` for integral scalars, bench.cxx lines 34–35: each element is
the cast of a fresh `rand()` draw; no accumulation and no normalization. -/
def randomize_integral (d : ℕ) (r : ℕ → ℕ) (cast_scalar : ℕ → ℤ) :
    vectors_pair_gt ℤ d :=
  { a := fun i => cast_scalar (r (2 * i))
    b := fun i => cast_scalar (r (2 * i + 1)) }

/-- The L2 norm of a vector, for stating the normalization invariant. -/
noncomputable def l2_norm {d : ℕ} (v : Fin d → ℝ) : ℝ :=
  Real.sqrt (∑ i, v i ^ 2)

theorem sum_squares_eq_sum_range (raw : ℕ → ℝ) (n : ℕ) :
    sum_squares raw n = ∑ k ∈ Finset.range n, raw k ^ 2 := by
  induction n with
  | zero => simp [sum_squares]
  | succ n ih => rw [sum_squares, ih, Finset.sum_range_succ, sq]

theorem normalized_norm_one {d : ℕ} (raw : ℕ → ℝ) (h : 0 < sum_squares raw d) :
    l2_norm (fun i : Fin d => raw i / Real.sqrt (sum_squares raw d)) = 1 := by
  have hS : (0 : ℝ) ≤ sum_squares raw d := le_of_lt h
  unfold l2_norm
  have hpt : (∑ i : Fin d, (raw i / Real.sqrt (sum_squares raw d)) ^ 2) =
      ∑ i : Fin d, raw i ^ 2 / sum_squares raw d :=
    Finset.sum_congr rfl fun i _ => by rw [div_pow, Real.sq_sqrt hS]
  rw [hpt, ← Finset.sum_div, Fin.sum_univ_eq_sum_range (fun k => raw k ^ 2) d,
    ← sum_squares_eq_sum_range, div_self (ne_of_gt h), Real.sqrt_one]

/-- C4 (amended): for floating-point scalars, `randomize` draws each element
as a uniform value in the **closed** interval [0,1] — the draw
`rand()/RAND_MAX` attains 1 exactly when `rand()` returns `RAND_MAX` — casts
each element to the target scalar width as it is stored, accumulates a
per-vector running sum of squares of the raw (uncast) draws, and after
filling divides each stored, already-cast element by the square root of its
own vector's raw sum of squares, casting the quotient to the target scalar
width again: the cast to the scalar width is **not** deferred until after
normalization. -/
theorem c4_randomize_draws (d rand_max : ℕ) (r : ℕ → ℕ) (cast_fp : ℝ → ℝ)
    (hR : 0 < rand_max) (hr : ∀ k, r k ≤ rand_max) :
    (∀ k, 0 ≤ raw_draw rand_max r k ∧ raw_draw rand_max r k ≤ 1) ∧
    (∀ i : Fin d,
      (randomize d rand_max r cast_fp).a i =
        cast_fp (cast_fp (raw_draw rand_max r (2 * i)) /
          Real.sqrt (∑ k ∈ Finset.range d, raw_draw rand_max r (2 * k) ^ 2)) ∧
      (randomize d rand_max r cast_fp).b i =
        cast_fp (cast_fp (raw_draw rand_max r (2 * i + 1)) /
          Real.sqrt (∑ k ∈ Finset.range d, raw_draw rand_max r (2 * k + 1) ^ 2))) := by
  constructor
  · intro k
    unfold raw_draw
    constructor
    · exact div_nonneg (Nat.cast_nonneg _) (Nat.cast_nonneg _)
    · rw [div_le_one (by exact_mod_cast hR)]
      exact_mod_cast hr k
  · intro i
    constructor
    · show cast_fp (cast_fp (raw_draw rand_max r (2 * i)) /
          Real.sqrt (sum_squares (fun k => raw_draw rand_max r (2 * k)) d)) = _
      rw [sum_squares_eq_sum_range]
    · show cast_fp (cast_fp (raw_draw rand_max r (2 * i + 1)) /
          Real.sqrt (sum_squares (fun k => raw_draw rand_max r (2 * k + 1)) d)) = _
      rw [sum_squares_eq_sum_range]

theorem c4_witness :
    0 < 1 ∧ (∀ k : ℕ, (fun _ : ℕ => 1) k ≤ 1) ∧
    (0 ≤ raw_draw 1 (fun _ => 1) 0 ∧ raw_draw 1 (fun _ => 1) 0 ≤ 1) :=
  ⟨Nat.one_pos, fun _ => le_refl 1,
    (c4_randomize_draws 1 1 (fun _ => 1) id Nat.one_pos fun _ => le_refl 1).1 0⟩

/-- A lossy width cast — rounding down to an integer — standing in for a
narrowing `static_cast` that does not preserve all values. -/
noncomputable def floor_cast : ℝ → ℝ := fun x => (⌊x⌋ : ℝ)

/-- C4 counterexample, refuting both false parts of the claim.  First,
`rand()` may return `RAND_MAX` (here 32767, the smallest value the C standard
allows for it), and then the drawn value `rand()/RAND_MAX` equals 1 exactly —
outside the half-open interval [0,1) the claim states.  Second, the cast to
the scalar width is not applied "only then" (after normalization): with one
element drawn as 1/2 and a lossy cast, the stored element is
`cast(cast(1/2) / sqrt(1/4)) = 0`, whereas normalizing first and casting only
then would give `cast((1/2) / sqrt(1/4)) = 1`. -/
theorem c4_counterexample :
    (raw_draw 32767 (fun _ => 32767) 0 = 1 ∧
      ¬(raw_draw 32767 (fun _ => 32767) 0 < 1)) ∧
    ((randomize 1 2 (fun _ => 1) floor_cast).a 0 = 0 ∧
      floor_cast (raw_draw 2 (fun _ => 1) 0 /
        Real.sqrt (∑ k ∈ Finset.range 1, raw_draw 2 (fun _ => 1) (2 * k) ^ 2)) = 1 ∧
      (randomize 1 2 (fun _ => 1) floor_cast).a 0 ≠
        floor_cast (raw_draw 2 (fun _ => 1) 0 /
          Real.sqrt (∑ k ∈ Finset.range 1, raw_draw 2 (fun _ => 1) (2 * k) ^ 2))) := by
  have hdraw : raw_draw 2 (fun _ => 1) 0 = 1 / 2 := by
    unfold raw_draw
    norm_num
  have hsum : sum_squares (fun k => raw_draw 2 (fun _ => 1) (2 * k)) 1 = 1 / 4 := by
    show sum_squares (fun k => raw_draw 2 (fun _ => 1) (2 * k)) 0 +
        raw_draw 2 (fun _ => 1) (2 * 0) * raw_draw 2 (fun _ => 1) (2 * 0) = 1 / 4
    rw [show (2 * 0 : ℕ) = 0 from rfl, hdraw]
    show (0 : ℝ) + 1 / 2 * (1 / 2) = 1 / 4
    norm_num
  have hsqrt : Real.sqrt (sum_squares (fun k => raw_draw 2 (fun _ => 1) (2 * k)) 1) = 1 / 2 := by
    rw [hsum, show (1 / 4 : ℝ) = (1 / 2) ^ 2 by norm_num,
      Real.sqrt_sq (by norm_num : (0 : ℝ) ≤ 1 / 2)]
  have hfloor_half : floor_cast (1 / 2 : ℝ) = 0 := by
    unfold floor_cast
    rw [show ⌊(1 / 2 : ℝ)⌋ = 0 from
      Int.floor_eq_zero_iff.mpr (Set.mem_Ico.mpr ⟨by norm_num, by norm_num⟩)]
    norm_num
  have ha0 : (randomize 1 2 (fun _ => 1) floor_cast).a 0 = 0 := by
    show floor_cast (floor_cast (raw_draw 2 (fun _ => 1) 0) /
        Real.sqrt (sum_squares (fun k => raw_draw 2 (fun _ => 1) (2 * k)) 1)) = 0
    rw [hdraw, hfloor_half, zero_div]
    unfold floor_cast
    norm_num
  have hclaim : floor_cast (raw_draw 2 (fun _ => 1) 0 /
      Real.sqrt (∑ k ∈ Finset.range 1, raw_draw 2 (fun _ => 1) (2 * k) ^ 2)) = 1 := by
    rw [Finset.sum_range_one, show (2 * 0 : ℕ) = 0 from rfl, hdraw,
      Real.sqrt_sq (by norm_num : (0 : ℝ) ≤ 1 / 2)]
    unfold floor_cast
    norm_num
  refine ⟨⟨?_, ?_⟩, ha0, hclaim, ?_⟩
  · unfold raw_draw
    norm_num
  · unfold raw_draw
    norm_num
  · rw [ha0, hclaim]
    norm_num

/-- C5 (amended): after `randomize`, provided the raw draws of each vector
are not all zero (so the accumulated sum of squares is positive), each of the
two vectors has L2 norm exactly 1, hence within the fixed tolerance `1e-3` of
1.0; for integral scalar types the elements are the raw cast draws and no
normalization is applied.  The width cast is instantiated at the identity
(the declared exact-cast idealisation, whose rounding the `1e-3` tolerance
absorbs for the actual scalar widths). -/
theorem c5_unit_norm (d rand_max : ℕ) (r : ℕ → ℕ) (cast_scalar : ℕ → ℤ)
    (hA : 0 < sum_squares (fun k => raw_draw rand_max r (2 * k)) d)
    (hB : 0 < sum_squares (fun k => raw_draw rand_max r (2 * k + 1)) d) :
    |l2_norm ((randomize d rand_max r id).a) - 1| ≤ 1 / 1000 ∧
    |l2_norm ((randomize d rand_max r id).b) - 1| ≤ 1 / 1000 ∧
    (∀ i : Fin d,
      (randomize_integral d r cast_scalar).a i = cast_scalar (r (2 * i)) ∧
      (randomize_integral d r cast_scalar).b i = cast_scalar (r (2 * i + 1))) := by
  have haeq : (randomize d rand_max r id).a = fun i : Fin d =>
      raw_draw rand_max r (2 * i) /
        Real.sqrt (sum_squares (fun k => raw_draw rand_max r (2 * k)) d) := rfl
  have hbeq : (randomize d rand_max r id).b = fun i : Fin d =>
      raw_draw rand_max r (2 * i + 1) /
        Real.sqrt (sum_squares (fun k => raw_draw rand_max r (2 * k + 1)) d) := rfl
  refine ⟨?_, ?_, fun i => ⟨rfl, rfl⟩⟩
  · rw [haeq, normalized_norm_one (fun k => raw_draw rand_max r (2 * k)) hA]
    norm_num
  · rw [hbeq, normalized_norm_one (fun k => raw_draw rand_max r (2 * k + 1)) hB]
    norm_num

theorem c5_witness :
    0 < sum_squares (fun k => raw_draw 1 (fun _ => 1) (2 * k)) 1 ∧
    0 < sum_squares (fun k => raw_draw 1 (fun _ => 1) (2 * k + 1)) 1 ∧
    |l2_norm ((randomize 1 1 (fun _ => 1) id).a) - 1| ≤ 1 / 1000 :=
  ⟨by norm_num [sum_squares, raw_draw], by norm_num [sum_squares, raw_draw],
    (c5_unit_norm 1 1 (fun _ => 1) (fun n => (n : ℤ))
        (by norm_num [sum_squares, raw_draw]) (by norm_num [sum_squares, raw_draw])).1⟩

/-- C5 counterexample: when every `rand()` draw is 0 (a possible run), the
accumulated sum of squares is 0 and the normalization divides by zero; in the
exact model the vector is the zero vector and its L2 norm is 0, which is not
within `1e-3` of 1.0. -/
theorem c5_counterexample :
    ¬(|l2_norm ((randomize 1 1 (fun _ => 0) id).a) - 1| ≤ 1 / 1000) := by
  have ha : (randomize 1 1 (fun _ => 0) id).a = fun _ => 0 := by
    funext i
    show raw_draw 1 (fun _ => 0) (2 * i) /
        Real.sqrt (sum_squares (fun k => raw_draw 1 (fun _ => 0) (2 * k)) 1) = 0
    unfold raw_draw
    norm_num
  rw [ha]
  unfold l2_norm
  norm_num

end SimSIMD
